import Mathlib

/-!
Shallow embedding of the shodan play-queue / notification core.

The embedding follows the TypeScript sources:
* `src/utils/filterTechniques.ts` — the preference filter,
* `src/stores/playQueue.ts` — queue generation, restoration, sequencing,
* `src/stores/notifications.ts` — the notification scheduler.

Conventions of the embedding:
* the cursor is an `Int` because the source uses `-1` to encode "none";
* `Math.floor(Math.random() * (i + 1))` is modelled by `rand i % (i + 1)`
  for an arbitrary choice function `rand : Nat → Nat`, which ranges over
  exactly the values `0 .. i` that the source expression can produce;
* `localStorage` reads are modelled by an explicit read-outcome datatype
  (absent / throwing / parseable-but-wrong-shape / well-formed value),
  mirroring the `try`/`catch` plus shape checks of the source;
* `localStorage` writes are modelled by a boolean "this write throws"
  parameter; a failed write only produces the error notification emitted
  in the source's `catch` block and, as in the source, touches no state;
* notifications emitted by an operation are returned as an explicit list;
* JavaScript reference equality `activeNotification.value ===
  permanentNotification.value` is modelled by structural equality of the
  two `Option Notif` values; notification ids are unique in the source
  (`generateId`), under which the two coincide;
* the `setTimeout` timer is modelled by a `timerPending` flag plus an
  explicit `onTransientExpire` transition that runs the timeout callback.
-/

namespace Shodan

/-! ## Data model (stores/techniques.ts, stores/preferences.ts) -/

/-- Grading sources, from `preferences.ts`: `type GradingSource = 'aikikai' | 'aikicircle'`. -/
inductive GradingSource where
  | aikikai
  | aikicircle
deriving DecidableEq, Repr

/-- An item of the catalog, from `techniques.ts` (`interface Technique`).
Kyu levels are numbers in the source; the optional per-source level
fields are the only fields the core logic reads. -/
structure Technique where
  id : Nat
  filename : String
  category : String
  attack : String
  technique : Option String
  aikicircle : Option Nat
  aikikai : Option Nat
deriving DecidableEq, Repr

/-- Field lookup `technique[source]` for the two grading-source keys. -/
def Technique.getSource (t : Technique) : GradingSource → Option Nat
  | .aikikai => t.aikikai
  | .aikicircle => t.aikicircle

/-- User preferences, from `preferences.ts` (`interface AppPreferences`). -/
structure AppPreferences where
  kyus : List Nat
  sources : List GradingSource
  selectedKyus : List Nat
  selectedSource : GradingSource
  includeOther : Bool
deriving DecidableEq, Repr

/-- `filterTechnique` from `src/utils/filterTechniques.ts`:
case 1 — the technique has a kyu value for the selected source: include
iff that value is among the selected kyus; case 2 — `includeOther` is set:
include iff the technique has no value for any grading source; otherwise
exclude. -/
def filterTechnique (technique : Technique) (preferences : AppPreferences) : Bool :=
  match technique.getSource preferences.selectedSource with
  | some selectedSourceKyuValue =>
      preferences.selectedKyus.contains selectedSourceKyuValue
  | none =>
      if preferences.includeOther then
        !(preferences.sources.any fun source => (technique.getSource source).isSome)
      else
        false

/-- `filterTechniques` from `src/utils/filterTechniques.ts`. -/
def filterTechniques (techniques : List Technique) (preferences : AppPreferences) : List Technique :=
  techniques.filter (fun technique => filterTechnique technique preferences)

/-- `getTechniqueById` from `techniques.ts`: first catalog entry with the
given id, `none` when absent (`find(...) || null`). -/
def getTechniqueById (techniques : List Technique) (id : Nat) : Option Technique :=
  techniques.find? (fun t => t.id == id)

/-! ## Fisher–Yates shuffle (playQueue.ts, `shuffleArray`) -/

/-- The destructuring swap `[a[i], a[j]] = [a[j], a[i]]` on a list: write
the old value at `j` to position `i` and the old value at `i` to
position `j`.  Out-of-range indices never occur in the shuffle loop; the
guard makes the function total. -/
def swapAt (l : List α) (i j : Nat) : List α :=
  match l[i]?, l[j]? with
  | some a, some b => (l.set i b).set j a
  | _, _ => l

/-- The loop `for (let i = length - 1; i > 0; i--)` of `shuffleArray`,
parameterised by the per-step random choice `rand`.  At loop counter
`i + 1` the partner index is `rand (i + 1) % (i + 2)`, the model of
`Math.floor(Math.random() * (i + 1))` at source index `i + 1`. -/
def fyLoop (rand : Nat → Nat) : Nat → List Technique → List Technique
  | 0, l => l
  | i + 1, l => fyLoop rand i (swapAt l (i + 1) (rand (i + 1) % (i + 2)))

/-- `shuffleArray` from `playQueue.ts`: copy the array and run the
Fisher–Yates loop from the last index down. -/
def shuffleArray (rand : Nat → Nat) (array : List Technique) : List Technique :=
  fyLoop rand (array.length - 1) array

/-! ## Play queue state and operations (playQueue.ts) -/

/-- Notification kinds, from `notifications.ts`
(`type NotificationType = 'status' | 'error'`). -/
inductive NotificationType where
  | status
  | error
deriving DecidableEq, Repr

/-- Notification persistence, from `notifications.ts`
(`type NotificationDuration = 'transient' | 'permanent'`). -/
inductive NotificationDuration where
  | transient
  | permanent
deriving DecidableEq, Repr

/-- The arguments of one `addNotification(message, type, duration)` call
made by the queue store: the externally observable notification event. -/
structure Emitted where
  message : String
  type : NotificationType
  duration : NotificationDuration
deriving DecidableEq, Repr

/-- The in-memory state of the play-queue store: the `queue`,
`currentIndex` and `isPlaying` refs.  `currentIndex` is an `Int`
because the source encodes "no cursor" as `-1`. -/
structure QueueState where
  queue : List Technique
  currentIndex : Int
  isPlaying : Bool
deriving DecidableEq, Repr

/-- `interface StoredPlayState` from `playQueue.ts`: the persisted
projection holds only the current index (source comment: "We don't need
to store isPlaying since we always start paused"). -/
structure StoredPlayState where
  currentIndex : Int
deriving DecidableEq, Repr

/-- The `StoredPlayState` value that `savePlayState` serialises from a
queue state (body of `savePlayState`, lines building `state`). -/
def storedPlayStateOf (s : QueueState) : StoredPlayState :=
  { currentIndex := s.currentIndex }

/-- The identifier list that `saveQueue` serialises
(`queue.value.map(t => t.id)`). -/
def storedQueueIdsOf (s : QueueState) : List Nat :=
  s.queue.map Technique.id

/-- Outcome of reading the stored queue-id list: the key is absent,
`getItem`/`JSON.parse` throws, the parse succeeds but the value is not
an array (`Array.isArray` fails), or an id list is obtained. -/
inductive ReadQueueOutcome where
  | absent
  | throws
  | notArray
  | ids (l : List Nat)
deriving DecidableEq, Repr

/-- Outcome of reading the stored play state: absent, throwing,
parseable but `currentIndex` is not a number, or a number. -/
inductive ReadStateOutcome where
  | absent
  | throws
  | notNumber
  | num (i : Int)
deriving DecidableEq, Repr

/-- `loadSavedQueue` from `playQueue.ts`: resolve each stored id via
`getTechniqueById`, drop unresolvable ones, accept only a non-empty
result; a thrown read is caught and surfaced as a transient error
notification; every failure path returns the empty list. -/
def loadSavedQueue (techniques : List Technique) :
    ReadQueueOutcome → List Technique × List Emitted
  | .absent => ([], [])
  | .throws => ([], [⟨"Failed to load queue from storage", .error, .transient⟩])
  | .notArray => ([], [])
  | .ids savedIds =>
      if savedIds.length > 0 then
        let loadedQueue := savedIds.filterMap (getTechniqueById techniques)
        if loadedQueue.length > 0 then (loadedQueue, []) else ([], [])
      else ([], [])

/-- `loadPlayState` from `playQueue.ts`: a thrown read is caught and
surfaced as a transient error notification; every failure path returns
`currentIndex = -1`. -/
def loadPlayState : ReadStateOutcome → StoredPlayState × List Emitted
  | .absent => (⟨-1⟩, [])
  | .throws => (⟨-1⟩, [⟨"Failed to load play state from storage", .error, .transient⟩])
  | .notNumber => (⟨-1⟩, [])
  | .num i => (⟨i⟩, [])

/-- `saveQueue` from `playQueue.ts`: a throwing `setItem` is caught and
surfaced as a transient error notification; no state is touched. -/
def saveQueue (writeThrows : Bool) (_s : QueueState) : List Emitted :=
  if writeThrows then [⟨"Failed to save queue state to storage", .error, .transient⟩] else []

/-- `savePlayState` from `playQueue.ts`: same failure handling as
`saveQueue`, with the identical message of the source. -/
def savePlayState (writeThrows : Bool) (_s : QueueState) : List Emitted :=
  if writeThrows then [⟨"Failed to save queue state to storage", .error, .transient⟩] else []

/-- `generateQueue` from `playQueue.ts`: filter, shuffle, cursor `0` when
non-empty else `-1`, `isPlaying = false`, and exactly one notification —
a status report of the count, or an error when the count is zero.
Returns the new state, the boolean result, and the emitted
notifications. -/
def generateQueue (techniques : List Technique) (preferences : AppPreferences)
    (rand : Nat → Nat) : QueueState × Bool × List Emitted :=
  let filteredTechniques := filterTechniques techniques preferences
  let q := shuffleArray rand filteredTechniques
  let s : QueueState :=
    { queue := q
      currentIndex := if q.length > 0 then 0 else -1
      isPlaying := false }
  let notifs : List Emitted :=
    if q.length > 0 then
      [⟨"Play queue has been refreshed with " ++ toString q.length ++ " techniques",
        .status, .transient⟩]
    else
      [⟨"No techniques match current preferences", .error, .transient⟩]
  (s, q.length > 0, notifs)

/-- `initializeQueue` from `playQueue.ts`: precondition guard on an empty
catalog, forced regeneration, or restoration from storage with the
cursor-clamp policy and `isPlaying = false`; falls back to
`generateQueue` when no valid saved queue exists. -/
def initializeQueue (techniques : List Technique) (preferences : AppPreferences)
    (rand : Nat → Nat) (forceRegenerate : Bool)
    (qRead : ReadQueueOutcome) (sRead : ReadStateOutcome)
    (s : QueueState) : QueueState × Bool × List Emitted :=
  if techniques.length = 0 then
    (s, false, [])
  else if forceRegenerate then
    generateQueue techniques preferences rand
  else
    let savedQueue := (loadSavedQueue techniques qRead).1
    let n1 := (loadSavedQueue techniques qRead).2
    let savedState := (loadPlayState sRead).1
    let n2 := (loadPlayState sRead).2
    if savedQueue.length > 0 then
      let idx : Int :=
        if 0 ≤ savedState.currentIndex ∧ savedState.currentIndex < (savedQueue.length : Int) then
          savedState.currentIndex
        else if savedState.currentIndex ≥ (savedQueue.length : Int) then
          (savedQueue.length : Int) - 1
        else
          0
      ({ queue := savedQueue, currentIndex := idx, isPlaying := false }, true, n1 ++ n2)
    else
      let g := generateQueue techniques preferences rand
      (g.1, g.2.1, n1 ++ n2 ++ g.2.2)

/-- `currentTechnique` from `playQueue.ts`: the item at the cursor when
the cursor is in bounds, else `none`. -/
def currentTechnique (s : QueueState) : Option Technique :=
  if 0 ≤ s.currentIndex ∧ s.currentIndex < (s.queue.length : Int) then
    s.queue[s.currentIndex.toNat]?
  else
    none

/-- `nextTrack` from `playQueue.ts`: empty queue — no mutation, `none`;
cursor below the last index — increment and return the new current item;
otherwise — no mutation, `none`. -/
def nextTrack (s : QueueState) : QueueState × Option Technique :=
  if s.queue.length = 0 then
    (s, none)
  else if s.currentIndex < (s.queue.length : Int) - 1 then
    let s' := { s with currentIndex := s.currentIndex + 1 }
    (s', currentTechnique s')
  else
    (s, none)

/-- `setPlaying` from `playQueue.ts`: set the flag, touch nothing else. -/
def setPlaying (playing : Bool) (s : QueueState) : QueueState :=
  { s with isPlaying := playing }

/-- `resetQueue` from `playQueue.ts`: clear everything. -/
def resetQueue (_s : QueueState) : QueueState :=
  { queue := [], currentIndex := -1, isPlaying := false }

/-- The watcher of `playQueue.ts` (`watch([queue, currentIndex,
isPlaying], ...)`) runs `saveQueue` and `savePlayState` after a
mutation: the state produced by `op` stands regardless of either
write's outcome, which contributes notifications only. -/
def persistAfter (op : QueueState → QueueState) (queueWriteThrows stateWriteThrows : Bool)
    (s : QueueState) : QueueState × List Emitted :=
  let s' := op s
  (s', saveQueue queueWriteThrows s' ++ savePlayState stateWriteThrows s')

/-- The spec's Queue invariant (§3): empty queue forces cursor `-1`
("none") and not playing; a non-empty queue bounds the cursor. -/
def queueInv (s : QueueState) : Prop :=
  (s.queue = [] → s.currentIndex = -1 ∧ s.isPlaying = false) ∧
  (s.queue ≠ [] → 0 ≤ s.currentIndex ∧ s.currentIndex < (s.queue.length : Int))

instance (s : QueueState) : Decidable (queueInv s) := by
  unfold queueInv; infer_instance

/-! ## Notification scheduler (notifications.ts) -/

/-- `interface Notification` from `notifications.ts`.  The id (a fresh
string from `generateId`) and timestamp (`Date.now()`) are modelled as
naturals supplied by the caller, since both are impure in the source. -/
structure Notif where
  id : Nat
  type : NotificationType
  message : String
  duration : NotificationDuration
  timestamp : Nat
deriving DecidableEq, Repr

/-- The refs of the notifications store.  `timerPending` models "a
`setTimeout` scheduled by `processQueue` has not yet fired and has not
been cancelled"; `clearTimeout` on a fired or absent timer is a no-op,
exactly as in the browser. -/
structure NotifState where
  active : Option Notif
  permanent : Option Notif
  queue : List Notif
  isTransientShowing : Bool
  timerPending : Bool
deriving DecidableEq, Repr

/-- The initial store state: all refs at their declared defaults. -/
def initialNotifState : NotifState :=
  { active := none, permanent := none, queue := [], isTransientShowing := false,
    timerPending := false }

/-- `processQueue` from `notifications.ts`: exit if the backlog is empty
or a transient is showing; otherwise shift the head, make it active,
mark showing, and start the expiry timer. -/
def processQueue (s : NotifState) : NotifState :=
  match s.queue with
  | [] => s
  | nextNotification :: rest =>
      if s.isTransientShowing then s
      else
        { s with
          queue := rest
          active := some nextNotification
          isTransientShowing := true
          timerPending := true }

/-- `addNotification` from `notifications.ts`, with the generated id and
timestamp as parameters.  Permanent: replace the permanent slot and,
when no transient is showing, the active slot.  Transient: append to the
backlog and, when no transient is showing and the active slot equals the
permanent slot (`===` in the source), process the backlog. -/
def addNotification (message : String) (type : NotificationType)
    (duration : NotificationDuration) (id timestamp : Nat) (s : NotifState) : NotifState :=
  let notification : Notif :=
    { id := id, type := type, message := message, duration := duration,
      timestamp := timestamp }
  if duration = .permanent then
    let s := { s with permanent := some notification }
    if !s.isTransientShowing then { s with active := some notification } else s
  else
    let s := { s with queue := s.queue ++ [notification] }
    if !s.isTransientShowing ∧ s.active = s.permanent then processQueue s else s

/-- The body of the `setTimeout` callback in `processQueue`, up to the
trailing `processQueue()` call: the timer has fired (`timerPending`
drops), showing stops, and the active slot reverts to the permanent
notification when one exists, else to `none`. -/
def expireCore (s : NotifState) : NotifState :=
  { s with
    timerPending := false
    isTransientShowing := false
    active := s.permanent }

/-- The full `setTimeout` callback: `expireCore` then `processQueue`.
Only meaningful from states with `timerPending = true`. -/
def onTransientExpire (s : NotifState) : NotifState :=
  processQueue (expireCore s)

/-- `dismissNotification()` with no id: clear everything and cancel the
timer. -/
def dismissNotificationAll (_s : NotifState) : NotifState :=
  initialNotifState

/-- First branch of `dismissNotification(id)`: if the active
notification matches, cancel a showing transient's timer (`clearTimeout`
is a no-op on a fired or absent timer), stop showing, fall back to the
permanent slot when it exists with a different id — else clear active
and permanent together — and re-run `processQueue`. -/
def dismissActiveBranch (id : Nat) (s : NotifState) : NotifState :=
  if s.active.map Notif.id = some id then
    let sa := { s with timerPending := if s.isTransientShowing then false else s.timerPending }
    let sb := { sa with isTransientShowing := false }
    let sc :=
      match sb.permanent with
      | some p =>
          if p.id ≠ id then { sb with active := some p }
          else { sb with active := none, permanent := none }
      | none => { sb with active := none, permanent := none }
    processQueue sc
  else s

/-- Second branch of `dismissNotification(id)`: if the permanent
notification matches, clear it, and if it was also active, clear active
and re-run `processQueue`. -/
def dismissPermanentBranch (id : Nat) (s1 : NotifState) : NotifState :=
  if s1.permanent.map Notif.id = some id then
    let sd := { s1 with permanent := none }
    if sd.active.map Notif.id = some id then
      processQueue { sd with active := none }
    else sd
  else s1

/-- `dismissNotification(id)` from `notifications.ts`, translated branch
by branch: the active-matches branch, then the permanent-matches branch,
then the backlog filter. -/
def dismissNotificationId (id : Nat) (s : NotifState) : NotifState :=
  let s2 := dismissPermanentBranch id (dismissActiveBranch id s)
  { s2 with queue := s2.queue.filter (fun n => n.id ≠ id) }

/-- `cleanup` from `notifications.ts`: cancel a pending timer; every
other ref is untouched. -/
def cleanup (s : NotifState) : NotifState :=
  { s with timerPending := false }

/-- A public operation on the notification store that does not involve
the timer or dismissal: an `addNotification` call (with its generated id
and timestamp) or a redundant `processQueue` call. -/
inductive NOp where
  | add (message : String) (type : NotificationType) (duration : NotificationDuration)
      (id timestamp : Nat)
  | proc
deriving DecidableEq, Repr

/-- Apply one scheduler operation. -/
def applyNOp : NOp → NotifState → NotifState
  | .add m t d i ts, s => addNotification m t d i ts s
  | .proc, s => processQueue s

/-- Apply a sequence of scheduler operations, first element first. -/
def applyNOps : List NOp → NotifState → NotifState
  | [], s => s
  | op :: ops, s => applyNOps ops (applyNOp op s)

/-- The scheduler's structural invariant: whenever no transient is
showing, the backlog has been drained and the active slot equals the
permanent slot.  It holds initially and is preserved by every
operation (`notifInv_reachable` below). -/
def notifInv (s : NotifState) : Prop :=
  s.isTransientShowing = false → s.queue = [] ∧ s.active = s.permanent

instance (s : NotifState) : Decidable (notifInv s) := by
  unfold notifInv; infer_instance

/-- The states reachable through the store's interface: the initial
state, closed under adds, redundant `processQueue` calls, timer expiry
(only of a pending timer), both dismissal forms, and `cleanup`. -/
inductive ReachableNotifState : NotifState → Prop where
  | init : ReachableNotifState initialNotifState
  | add (m : String) (t : NotificationType) (d : NotificationDuration) (i ts : Nat)
      {s : NotifState} :
      ReachableNotifState s → ReachableNotifState (addNotification m t d i ts s)
  | proc {s : NotifState} : ReachableNotifState s → ReachableNotifState (processQueue s)
  | expire {s : NotifState} : ReachableNotifState s → s.timerPending = true →
      ReachableNotifState (onTransientExpire s)
  | dismissAll {s : NotifState} : ReachableNotifState s →
      ReachableNotifState (dismissNotificationAll s)
  | dismissId (id : Nat) {s : NotifState} : ReachableNotifState s →
      ReachableNotifState (dismissNotificationId id s)
  | cleanup {s : NotifState} : ReachableNotifState s → ReachableNotifState (cleanup s)

/-! ## Shuffle lemmas -/

theorem swapAt_perm {α : Type _} [DecidableEq α] (l : List α) (i j : Nat) :
    (swapAt l i j).Perm l := by
  unfold swapAt
  cases h1 : l[i]? with
  | none => exact List.Perm.refl l
  | some a =>
    cases h2 : l[j]? with
    | none => exact List.Perm.refl l
    | some b =>
      obtain ⟨hi, ha⟩ := List.getElem?_eq_some.mp h1
      obtain ⟨hj, hb⟩ := List.getElem?_eq_some.mp h2
      have hmem : a ∈ l := ha ▸ l.getElem_mem hi
      rw [List.perm_iff_count]
      intro x
      have hj2 : j < (l.set i b).length := by simpa using hj
      rw [List.count_set a x (l.set i b) j hj2, List.count_set b x l i hi]
      have hq : (l.set i b)[j]? = some b := by
        rw [List.getElem?_set]
        by_cases hij : i = j
        · rw [if_pos hij, if_pos hi]
        · rw [if_neg hij]
          exact h2
      obtain ⟨hj3, hgj⟩ := List.getElem?_eq_some.mp hq
      rw [hgj, ha]
      have hpa : (if a == x then 1 else 0) ≤ l.count x := by
        by_cases hax : a = x
        · subst hax
          simpa using List.count_pos_iff.mpr hmem
        · simp [beq_iff_eq, hax]
      omega

theorem fyLoop_perm (rand : Nat → Nat) (i : Nat) (l : List Technique) :
    (fyLoop rand i l).Perm l := by
  induction i generalizing l with
  | zero => exact List.Perm.refl l
  | succ i ih =>
    simp only [fyLoop]
    exact (ih _).trans (swapAt_perm l (i + 1) _)

theorem shuffleArray_perm (rand : Nat → Nat) (l : List Technique) :
    (shuffleArray rand l).Perm l :=
  fyLoop_perm rand (l.length - 1) l

theorem shuffleArray_length (rand : Nat → Nat) (l : List Technique) :
    (shuffleArray rand l).length = l.length :=
  (shuffleArray_perm rand l).length_eq

/-! ## C1: generateQueue -/

/-- C1: for every catalog, preference selection and sequence of random
choices, `generateQueue` sets the queue to a permutation of the filtered
catalog (hence the same multiset, with no duplicates whenever the
filtered catalog has none), sets the cursor to `0` when non-empty and to
`-1` (the source's encoding of "none") when empty, clears `isPlaying`,
and emits exactly one transient notification: a status notification
citing the count when positive, an error notification when zero. -/
theorem generateQueue_spec (techniques : List Technique) (preferences : AppPreferences)
    (rand : Nat → Nat) :
    (generateQueue techniques preferences rand).1.queue.Perm
        (filterTechniques techniques preferences) ∧
    (filterTechniques techniques preferences ≠ [] →
      (generateQueue techniques preferences rand).1.currentIndex = 0) ∧
    (filterTechniques techniques preferences = [] →
      (generateQueue techniques preferences rand).1.currentIndex = -1) ∧
    (generateQueue techniques preferences rand).1.isPlaying = false ∧
    ((filterTechniques techniques preferences).Nodup →
      (generateQueue techniques preferences rand).1.queue.Nodup) ∧
    (generateQueue techniques preferences rand).2.2.length = 1 ∧
    (filterTechniques techniques preferences ≠ [] →
      (generateQueue techniques preferences rand).2.2 =
        [⟨"Play queue has been refreshed with " ++
            toString (filterTechniques techniques preferences).length ++ " techniques",
          .status, .transient⟩] ∧
      (generateQueue techniques preferences rand).2.1 = true) ∧
    (filterTechniques techniques preferences = [] →
      (generateQueue techniques preferences rand).2.2 =
        [⟨"No techniques match current preferences", .error, .transient⟩] ∧
      (generateQueue techniques preferences rand).2.1 = false) := by
  have hperm := shuffleArray_perm rand (filterTechniques techniques preferences)
  have hlen := shuffleArray_length rand (filterTechniques techniques preferences)
  by_cases hf : filterTechniques techniques preferences = []
  · have hq : shuffleArray rand (filterTechniques techniques preferences) = [] := by
      rw [hf]
      rfl
    refine ⟨hperm, ?_, ?_, ?_, ?_, ?_, ?_, ?_⟩
    · exact fun h => absurd hf h
    · intro _
      simp [generateQueue, hq]
    · simp [generateQueue]
    · intro _
      simp [generateQueue, hq]
    · simp [generateQueue, hq]
    · exact fun h => absurd hf h
    · intro _
      constructor
      · simp [generateQueue, hq]
      · simp [generateQueue, hq]
  · have hfl : 0 < (filterTechniques techniques preferences).length := List.length_pos.mpr hf
    have hq : 0 < (shuffleArray rand (filterTechniques techniques preferences)).length := by
      rw [hlen]
      exact hfl
    refine ⟨hperm, ?_, ?_, ?_, ?_, ?_, ?_, ?_⟩
    · intro _
      simp [generateQueue, hq]
    · exact fun h => absurd h hf
    · simp [generateQueue]
    · exact fun h => hperm.nodup_iff.mpr h
    · simp [generateQueue, hq, hlen, hfl]
    · intro h
      constructor
      · simp [generateQueue, hq, hlen, h]
      · simp [generateQueue, hq]
    · exact fun h => absurd h hf

/-! ## C5: the preference filter -/

/-- C5: given that the selected source is among the known sources (a
stated well-formedness condition of `PreferenceSelection`), the filter
accepts a technique iff it carries a level for the selected source that
is among the selected levels, or `includeOther` is set and the technique
carries no level for any known source. -/
theorem filterTechnique_spec (t : Technique) (p : AppPreferences)
    (h : p.selectedSource ∈ p.sources) :
    filterTechnique t p = true ↔
      ((∃ v, t.getSource p.selectedSource = some v ∧ v ∈ p.selectedKyus) ∨
        (p.includeOther = true ∧ ∀ s ∈ p.sources, t.getSource s = none)) := by
  have hcm : ∀ (l : List Nat) (a : Nat), l.contains a = true ↔ a ∈ l := by
    intro l a
    simp [List.contains, List.elem_iff]
  unfold filterTechnique
  cases hv : t.getSource p.selectedSource with
  | some v =>
    rw [hcm]
    constructor
    · intro hc
      exact Or.inl ⟨v, rfl, hc⟩
    · rintro (⟨w, hw, hmem⟩ | ⟨_, hall⟩)
      · obtain rfl : v = w := Option.some.inj hw
        exact hmem
      · have := hall _ h
        rw [hv] at this
        exact Option.noConfusion this
  | none =>
    cases hio : p.includeOther with
    | true =>
      simp only [if_true, Bool.not_eq_true', List.any_eq_false]
      constructor
      · intro hall
        exact Or.inr ⟨by simp, fun s hs => by simpa using hall s hs⟩
      · rintro (⟨w, hw, _⟩ | ⟨_, hall⟩)
        · exact Option.noConfusion hw
        · intro s hs
          simp [hall s hs]
    | false =>
      simp only [Bool.false_eq_true, if_false]
      constructor
      · intro hfalse
        exact hfalse.elim
      · rintro (⟨w, hw, _⟩ | ⟨hio', _⟩)
        · exact Option.noConfusion hw
        · exact hio'.elim

/-- Witness for C5 at a concrete technique and preference selection. -/
theorem filterTechnique_spec_witness :
    (GradingSource.aikikai ∈
        (⟨[6, 5], [.aikikai, .aikicircle], [5], .aikikai, false⟩ : AppPreferences).sources) ∧
      (filterTechnique ⟨7, "f", "c", "a", none, none, some 5⟩
          ⟨[6, 5], [.aikikai, .aikicircle], [5], .aikikai, false⟩ = true ↔
        ((∃ v, Technique.getSource ⟨7, "f", "c", "a", none, none, some 5⟩
              (AppPreferences.selectedSource ⟨[6, 5], [.aikikai, .aikicircle], [5], .aikikai, false⟩) =
                some v ∧
            v ∈ AppPreferences.selectedKyus
              ⟨[6, 5], [.aikikai, .aikicircle], [5], .aikikai, false⟩) ∨
          (AppPreferences.includeOther
                ⟨[6, 5], [.aikikai, .aikicircle], [5], .aikikai, false⟩ = true ∧
            ∀ s ∈ AppPreferences.sources
                ⟨[6, 5], [.aikikai, .aikicircle], [5], .aikikai, false⟩,
              Technique.getSource ⟨7, "f", "c", "a", none, none, some 5⟩ s = none))) :=
  ⟨by decide, filterTechnique_spec _ _ (by decide)⟩

/-! ## Sample data for witnesses -/

/-- A technique graded aikikai kyu 5. -/
def sampleTechnique1 : Technique := ⟨1, "a1.mp3", "cat", "atk", none, none, some 5⟩

/-- A technique graded aikicircle kyu 3 only. -/
def sampleTechnique2 : Technique := ⟨2, "a2.mp3", "cat", "atk", none, some 3, none⟩

/-- An unclassified technique: no grading-source value at all. -/
def sampleTechnique3 : Technique := ⟨3, "a3.mp3", "cat", "atk", none, none, none⟩

/-- A small catalog. -/
def sampleCatalog : List Technique := [sampleTechnique1, sampleTechnique2, sampleTechnique3]

/-- Preferences selecting aikikai kyu 5 only, excluding unclassified. -/
def samplePrefs : AppPreferences :=
  ⟨[6, 5, 4, 3, 2, 1], [.aikikai, .aikicircle], [5], .aikikai, false⟩

/-- Preferences that no sample technique satisfies. -/
def emptyPrefs : AppPreferences :=
  ⟨[6, 5, 4, 3, 2, 1], [.aikikai, .aikicircle], [6], .aikikai, false⟩

/-- Witness for C1 at a concrete catalog, preference selection and
choice sequence: the filtered result is the non-empty `[sampleTechnique1]`,
and the theorem yields cursor `0` and success. -/
theorem generateQueue_spec_witness :
    (filterTechniques sampleCatalog samplePrefs ≠ []) ∧
      (generateQueue sampleCatalog samplePrefs (fun _ => 0)).1.currentIndex = 0 ∧
      (generateQueue sampleCatalog samplePrefs (fun _ => 0)).2.1 = true := by
  have h := generateQueue_spec sampleCatalog samplePrefs (fun _ => 0)
  exact ⟨by decide, h.2.1 (by decide), (h.2.2.2.2.2.2.1 (by decide)).2⟩

/-! ## C3: nextTrack -/

/-- C3: on an empty queue `nextTrack` returns `none` and changes nothing;
with the cursor strictly below the last index it increments the cursor,
leaves queue and playing flag alone, and returns the item at the new
cursor (`currentTechnique` of the new state); with the cursor at the
last index it returns `none` and leaves the state unchanged, making
repeated calls there idempotent; and the cursor never decreases. -/
theorem nextTrack_spec (s : QueueState) :
    (s.queue = [] → nextTrack s = (s, none)) ∧
    (s.queue ≠ [] → s.currentIndex < (s.queue.length : Int) - 1 →
      (nextTrack s).1.currentIndex = s.currentIndex + 1 ∧
      (nextTrack s).1.queue = s.queue ∧
      (nextTrack s).1.isPlaying = s.isPlaying ∧
      (nextTrack s).2 = currentTechnique (nextTrack s).1) ∧
    (s.currentIndex = (s.queue.length : Int) - 1 →
      nextTrack s = (s, none) ∧ nextTrack (nextTrack s).1 = (s, none)) ∧
    s.currentIndex ≤ (nextTrack s).1.currentIndex := by
  refine ⟨?_, ?_, ?_, ?_⟩
  · intro hnil
    unfold nextTrack
    rw [if_pos (by simp [hnil])]
  · intro hne hlt
    have h0 : ¬s.queue.length = 0 := by
      simpa [List.length_eq_zero] using hne
    unfold nextTrack
    rw [if_neg h0, if_pos hlt]
    exact ⟨rfl, rfl, rfl, rfl⟩
  · intro heq
    by_cases h0 : s.queue.length = 0
    · have hfirst : nextTrack s = (s, none) := by
        unfold nextTrack
        rw [if_pos h0]
      refine ⟨hfirst, ?_⟩
      rw [hfirst]
      exact hfirst
    · have hnlt : ¬s.currentIndex < (s.queue.length : Int) - 1 := by omega
      have hfirst : nextTrack s = (s, none) := by
        unfold nextTrack
        rw [if_neg h0, if_neg hnlt]
      refine ⟨hfirst, ?_⟩
      rw [hfirst]
      exact hfirst
  · unfold nextTrack
    by_cases h0 : s.queue.length = 0
    · rw [if_pos h0]
    · rw [if_neg h0]
      by_cases hlt : s.currentIndex < (s.queue.length : Int) - 1
      · rw [if_pos hlt]
        show s.currentIndex ≤ s.currentIndex + 1
        omega
      · rw [if_neg hlt]

/-- Witness for C3 at a concrete two-item queue with the cursor at `0`:
advancing yields cursor `1` and the second item. -/
theorem nextTrack_spec_witness :
    (([sampleTechnique1, sampleTechnique2] : List Technique) ≠ []) ∧
      ((0 : Int) < (([sampleTechnique1, sampleTechnique2] : List Technique).length : Int) - 1) ∧
      (nextTrack ⟨[sampleTechnique1, sampleTechnique2], 0, false⟩).1.currentIndex = 0 + 1 := by
  have h := (nextTrack_spec ⟨[sampleTechnique1, sampleTechnique2], 0, false⟩).2.1
  exact ⟨by decide, by decide, (h (by decide) (by decide)).1⟩

/-! ## C2: the Queue invariant -/

/-- Counterexample to C2 as stated: the empty queue with `cursor = -1`
and `isPlaying = false` satisfies the invariant, yet `setPlaying true`
yields a state violating it (empty queue with `isPlaying = true`) —
`setPlaying` does not guard the empty-queue case. -/
theorem queueInv_setPlaying_cex :
    queueInv ⟨[], -1, false⟩ ∧ ¬queueInv (setPlaying true ⟨[], -1, false⟩) := by
  constructor
  · exact ⟨fun _ => ⟨rfl, rfl⟩, fun h => absurd rfl h⟩
  · intro h
    exact Bool.noConfusion (h.1 rfl).2

/-- The cursor-clamp of `initializeQueue` always lands in bounds for a
non-empty restored queue. -/
theorem clampInv (q : List Technique) (c : Int) (hq : q ≠ []) :
    queueInv
      ⟨q,
        if 0 ≤ c ∧ c < (q.length : Int) then c
        else if c ≥ (q.length : Int) then (q.length : Int) - 1
        else 0,
        false⟩ := by
  have hl : 0 < q.length := List.length_pos.mpr hq
  unfold queueInv
  dsimp only
  refine ⟨fun hnil => absurd hnil hq, fun _ => ?_⟩
  split
  · omega
  · split <;> omega

/-- C2 (amended): the Queue invariant holds after `generateQueue` and
`resetQueue` unconditionally, after `initializeQueue` and `nextTrack`
applied to any state satisfying it, and after `setPlaying flag` applied
to a state satisfying it provided the queue is non-empty or the flag is
`false`. -/
theorem queueInv_preserved (s : QueueState) (h : queueInv s)
    (techniques : List Technique) (preferences : AppPreferences) (rand : Nat → Nat)
    (force : Bool) (qRead : ReadQueueOutcome) (sRead : ReadStateOutcome) (flag : Bool) :
    queueInv (generateQueue techniques preferences rand).1 ∧
    queueInv (initializeQueue techniques preferences rand force qRead sRead s).1 ∧
    queueInv (nextTrack s).1 ∧
    queueInv (resetQueue s) ∧
    (s.queue ≠ [] ∨ flag = false → queueInv (setPlaying flag s)) := by
  have hgen : ∀ t p r, queueInv (generateQueue t p r).1 := by
    intro t p r
    unfold generateQueue queueInv
    dsimp only
    by_cases hq : 0 < (shuffleArray r (filterTechniques t p)).length
    · have hne : shuffleArray r (filterTechniques t p) ≠ [] := by
        intro hnil
        rw [hnil] at hq
        exact absurd hq (by simp)
      rw [if_pos hq]
      refine ⟨fun hnil => absurd hnil hne, fun _ => ?_⟩
      constructor
      · omega
      · exact_mod_cast hq
    · have hnil : shuffleArray r (filterTechniques t p) = [] := by
        cases he : shuffleArray r (filterTechniques t p) with
        | nil => rfl
        | cons a l => exact absurd (by simp [he]) hq
      rw [if_neg hq]
      exact ⟨fun _ => ⟨rfl, rfl⟩, fun hne => absurd hnil hne⟩
  refine ⟨hgen _ _ _, ?_, ?_, ?_, ?_⟩
  · unfold initializeQueue
    by_cases hc : techniques.length = 0
    · rw [if_pos hc]
      exact h
    · rw [if_neg hc]
      by_cases hforce : force
      · rw [if_pos hforce]
        exact hgen _ _ _
      · rw [if_neg hforce]
        by_cases hs : (loadSavedQueue techniques qRead).1.length > 0
        · rw [if_pos hs]
          have hne : (loadSavedQueue techniques qRead).1 ≠ [] := by
            intro hnil
            rw [hnil] at hs
            exact absurd hs (by simp)
          exact clampInv _ _ hne
        · rw [if_neg hs]
          exact hgen _ _ _
  · rcases (nextTrack_spec s).2.2 with _
    unfold nextTrack
    by_cases h0 : s.queue.length = 0
    · rw [if_pos h0]
      exact h
    · rw [if_neg h0]
      by_cases hlt : s.currentIndex < (s.queue.length : Int) - 1
      · rw [if_pos hlt]
        have hne : s.queue ≠ [] := by
          intro hnil
          exact h0 (by simp [hnil])
        have hb := h.2 hne
        unfold queueInv
        dsimp only
        refine ⟨fun hnil => absurd hnil hne, fun _ => ?_⟩
        constructor <;> omega
      · rw [if_neg hlt]
        exact h
  · unfold resetQueue queueInv
    dsimp only
    exact ⟨fun _ => ⟨rfl, rfl⟩, fun hne => absurd rfl hne⟩
  · intro hcase
    unfold setPlaying queueInv
    dsimp only
    rcases hcase with hne | hflag
    · exact ⟨fun hnil => absurd hnil hne, fun hne' => h.2 hne'⟩
    · subst hflag
      exact ⟨fun hnil => ⟨(h.1 hnil).1, rfl⟩, fun hne' => h.2 hne'⟩

/-- Witness for C2 (amended) at the concrete valid state with one item
and cursor `0`. -/
theorem queueInv_preserved_witness :
    queueInv ⟨[sampleTechnique1], 0, false⟩ ∧
      queueInv (nextTrack ⟨[sampleTechnique1], 0, false⟩).1 ∧
      (([sampleTechnique1] : List Technique) ≠ [] ∨ (true : Bool) = false) ∧
      queueInv (setPlaying true ⟨[sampleTechnique1], 0, false⟩) := by
  have h := queueInv_preserved ⟨[sampleTechnique1], 0, false⟩ (by decide)
    sampleCatalog samplePrefs (fun _ => 0) false .absent .absent true
  exact ⟨by decide, h.2.2.1, by left; decide, h.2.2.2.2 (by left; decide)⟩

/-! ## C8: setPlaying and the persisted projection -/

/-- Counterexample to C8 as stated: two states differing only in the
playing flag serialise to identical persisted play state and identical
persisted id list — the flag's value is *not* included in the persisted
state (`StoredPlayState` holds only `currentIndex`). -/
theorem setPlaying_persist_cex :
    storedPlayStateOf (setPlaying true ⟨[], 0, false⟩) =
        storedPlayStateOf (setPlaying false ⟨[], 0, false⟩) ∧
      storedQueueIdsOf (setPlaying true ⟨[], 0, false⟩) =
        storedQueueIdsOf (setPlaying false ⟨[], 0, false⟩) :=
  ⟨rfl, rfl⟩

/-- C8 (amended): `setPlaying flag` sets the in-memory playing flag and
leaves items and cursor unchanged; the flag is not part of either
persisted projection (the play state stores only the cursor, the queue
store only the id list), so persisted data never drives resume
behavior. -/
theorem setPlaying_spec (flag : Bool) (s : QueueState) :
    (setPlaying flag s).isPlaying = flag ∧
    (setPlaying flag s).queue = s.queue ∧
    (setPlaying flag s).currentIndex = s.currentIndex ∧
    storedPlayStateOf (setPlaying flag s) = ⟨s.currentIndex⟩ ∧
    storedQueueIdsOf (setPlaying flag s) = s.queue.map Technique.id :=
  ⟨rfl, rfl, rfl, rfl, rfl⟩

/-! ## C4: restoration from storage -/

/-- When every stored id resolves, resolving and dropping reproduces the
stored id list in order (`find?` returns an element whose id matches). -/
theorem resolveAll_map_id (techniques : List Technique) (ids : List Nat)
    (h : ∀ i ∈ ids, (getTechniqueById techniques i).isSome) :
    (ids.filterMap (getTechniqueById techniques)).map Technique.id = ids := by
  induction ids with
  | nil => rfl
  | cons i ids ih =>
    have hi : (getTechniqueById techniques i).isSome :=
      h i (List.mem_cons_self i ids)
    obtain ⟨t, ht⟩ := Option.isSome_iff_exists.mp hi
    have hid : t.id = i := by
      have hfind := List.find?_some ht
      simpa [beq_iff_eq] using hfind
    rw [List.filterMap_cons, ht, List.map_cons, hid,
      ih (fun j hj => h j (List.mem_cons_of_mem i hj))]

/-- Counterexample to C4 as stated: the empty stored identifier list
(whose members all resolve, vacuously) with stored cursor `0` is not
restored — `loadSavedQueue` rejects it and `initializeQueue` falls back
to regeneration, producing the id list `[1]` rather than `[]`. -/
theorem initializeQueue_empty_ids_cex :
    (initializeQueue sampleCatalog samplePrefs (fun _ => 0) false
        (.ids []) (.num 0) ⟨[], -1, false⟩).1.queue.map Technique.id = [1] := by
  decide

/-- C4 (amended): for every *non-empty* stored identifier list whose
members all resolve in the catalog and every stored cursor,
`initializeQueue` (no forced regeneration, non-empty catalog) restores
the same ordered identifier list, applies the clamp policy to the
cursor, reports success, and always clears `isPlaying`. -/
theorem initializeQueue_restore_spec (techniques : List Technique)
    (preferences : AppPreferences) (rand : Nat → Nat) (ids : List Nat) (c : Int)
    (s : QueueState) (hcat : techniques ≠ []) (hne : ids ≠ [])
    (hres : ∀ i ∈ ids, (getTechniqueById techniques i).isSome) :
    (initializeQueue techniques preferences rand false (.ids ids) (.num c) s).1.queue.map
        Technique.id = ids ∧
    (0 ≤ c ∧ c < (ids.length : Int) →
      (initializeQueue techniques preferences rand false (.ids ids) (.num c) s).1.currentIndex
        = c) ∧
    (c ≥ (ids.length : Int) →
      (initializeQueue techniques preferences rand false (.ids ids) (.num c) s).1.currentIndex
        = (ids.length : Int) - 1) ∧
    (c < 0 →
      (initializeQueue techniques preferences rand false (.ids ids) (.num c) s).1.currentIndex
        = 0) ∧
    (initializeQueue techniques preferences rand false (.ids ids) (.num c) s).1.isPlaying
      = false ∧
    (initializeQueue techniques preferences rand false (.ids ids) (.num c) s).2.1 = true := by
  have hmap := resolveAll_map_id techniques ids hres
  have hlen : (ids.filterMap (getTechniqueById techniques)).length = ids.length := by
    have h := congrArg List.length hmap
    rwa [List.length_map] at h
  have hids0 : ids.length > 0 := List.length_pos.mpr hne
  have hload : loadSavedQueue techniques (.ids ids) =
      (ids.filterMap (getTechniqueById techniques), []) := by
    simp only [loadSavedQueue]
    rw [if_pos hids0, if_pos (by rw [hlen]; exact hids0)]
  have hcat0 : ¬techniques.length = 0 := by
    simpa [List.length_eq_zero] using hcat
  unfold initializeQueue
  rw [if_neg hcat0, if_neg (by simp), hload]
  dsimp only [loadPlayState]
  rw [if_pos (by rw [hlen]; exact hids0)]
  dsimp only
  refine ⟨hmap, ?_, ?_, ?_, rfl, rfl⟩
  · intro hin
    rw [if_pos (by constructor <;> omega)]
  · intro hge
    rw [if_neg (by omega), if_pos (by omega), hlen]
  · intro hneg
    rw [if_neg (by omega), if_neg (by omega)]

/-- Witness for C4 (amended) at a concrete catalog and stored state: the
two-element stored list `[2, 1]` and the out-of-range cursor `5` restore
to the same ordered ids with the cursor clamped to `1`. -/
theorem initializeQueue_restore_spec_witness :
    (sampleCatalog ≠ []) ∧ (([2, 1] : List Nat) ≠ []) ∧
      (initializeQueue sampleCatalog samplePrefs (fun _ => 0) false
          (.ids [2, 1]) (.num 5) ⟨[], -1, false⟩).1.queue.map Technique.id = [2, 1] ∧
      ((5 : Int) ≥ (([2, 1] : List Nat).length : Int)) ∧
      (initializeQueue sampleCatalog samplePrefs (fun _ => 0) false
          (.ids [2, 1]) (.num 5) ⟨[], -1, false⟩).1.currentIndex
        = (([2, 1] : List Nat).length : Int) - 1 ∧
      (initializeQueue sampleCatalog samplePrefs (fun _ => 0) false
          (.ids [2, 1]) (.num 5) ⟨[], -1, false⟩).1.isPlaying = false := by
  have h := initializeQueue_restore_spec sampleCatalog samplePrefs (fun _ => 0) [2, 1] 5
    ⟨[], -1, false⟩ (by decide) (by decide) (by decide)
  exact ⟨by decide, by decide, h.1, by decide, h.2.2.1 (by decide), h.2.2.2.2.1⟩

/-! ## C7: storage failure semantics -/

/-- C7: write failures never alter the state an operation computed (the
persisted-after state is the operation's state whatever the write
outcomes), each failing write surfaces a transient error notification
and successful writes surface nothing; and a throwing read during
restoration is caught, surfaces the transient load-error notifications,
and falls back to regeneration — the regenerated state stands
unchanged. -/
theorem storageFailure_spec (techniques : List Technique) (preferences : AppPreferences)
    (rand : Nat → Nat) (s : QueueState) (op : QueueState → QueueState) (qw sw : Bool) :
    (persistAfter op qw sw s).1 = op s ∧
    (qw = true →
      (⟨"Failed to save queue state to storage", .error, .transient⟩ : Emitted)
        ∈ (persistAfter op qw sw s).2) ∧
    (sw = true →
      (⟨"Failed to save queue state to storage", .error, .transient⟩ : Emitted)
        ∈ (persistAfter op qw sw s).2) ∧
    (qw = false → sw = false → (persistAfter op qw sw s).2 = []) ∧
    (techniques ≠ [] →
      initializeQueue techniques preferences rand false .throws .throws s =
        ((generateQueue techniques preferences rand).1,
          (generateQueue techniques preferences rand).2.1,
          ⟨"Failed to load queue from storage", .error, .transient⟩ ::
            ⟨"Failed to load play state from storage", .error, .transient⟩ ::
            (generateQueue techniques preferences rand).2.2)) := by
  refine ⟨rfl, ?_, ?_, ?_, ?_⟩
  · intro hq
    subst hq
    simp [persistAfter, saveQueue, savePlayState]
  · intro hs
    subst hs
    cases qw <;> simp [persistAfter, saveQueue, savePlayState]
  · intro hq hs
    subst hq
    subst hs
    rfl
  · intro hcat
    have hcat0 : ¬techniques.length = 0 := by
      simpa [List.length_eq_zero] using hcat
    unfold initializeQueue
    rw [if_neg hcat0, if_neg (by simp)]
    dsimp only [loadSavedQueue, loadPlayState]
    rfl

/-- Witness for C7 with both writes failing, a throwing read, and the
concrete catalog: the state equals the regenerated one and the error
notifications appear. -/
theorem storageFailure_spec_witness :
    (persistAfter (setPlaying true) true true ⟨[sampleTechnique1], 0, false⟩).1
        = setPlaying true ⟨[sampleTechnique1], 0, false⟩ ∧
      ((true : Bool) = true) ∧
      (⟨"Failed to save queue state to storage", .error, .transient⟩ : Emitted)
        ∈ (persistAfter (setPlaying true) true true ⟨[sampleTechnique1], 0, false⟩).2 ∧
      (sampleCatalog ≠ []) ∧
      initializeQueue sampleCatalog samplePrefs (fun _ => 0) false .throws .throws
          ⟨[], -1, false⟩ =
        ((generateQueue sampleCatalog samplePrefs (fun _ => 0)).1,
          (generateQueue sampleCatalog samplePrefs (fun _ => 0)).2.1,
          ⟨"Failed to load queue from storage", .error, .transient⟩ ::
            ⟨"Failed to load play state from storage", .error, .transient⟩ ::
            (generateQueue sampleCatalog samplePrefs (fun _ => 0)).2.2) := by
  have h := storageFailure_spec sampleCatalog samplePrefs (fun _ => 0)
    ⟨[], -1, false⟩ (setPlaying true) true true
  have h' := storageFailure_spec sampleCatalog samplePrefs (fun _ => 0)
    ⟨[sampleTechnique1], 0, false⟩ (setPlaying true) true true
  exact ⟨h'.1, rfl, h'.2.1 rfl, by decide, h.2.2.2.2 (by decide)⟩

/-! ## The scheduler invariant holds in every reachable state -/

theorem notifInv_initial : notifInv initialNotifState :=
  fun _ => ⟨rfl, rfl⟩

theorem notifInv_processQueue (s : NotifState) (h : notifInv s) :
    notifInv (processQueue s) := by
  unfold processQueue
  cases hq : s.queue with
  | nil => exact h
  | cons n rest =>
    dsimp only
    by_cases hshow : s.isTransientShowing = true
    · rw [if_pos hshow]
      intro hf
      exact absurd (hshow.symm.trans hf) (by simp)
    · rw [if_neg hshow]
      intro hf
      exact absurd hf (by simp)

/-- `processQueue` re-establishes the invariant from any state whose
active and permanent slots agree. -/
theorem notifInv_processQueue_of_eq (t : NotifState) (hap : t.active = t.permanent) :
    notifInv (processQueue t) := by
  unfold processQueue
  cases hq : t.queue with
  | nil => exact fun _ => ⟨hq, hap⟩
  | cons n rest =>
    dsimp only
    by_cases hshow : t.isTransientShowing = true
    · rw [if_pos hshow]
      intro hf
      exact absurd (hshow.symm.trans hf) (by simp)
    · rw [if_neg hshow]
      intro hf
      exact absurd hf (by simp)

theorem notifInv_addNotification (m : String) (ty : NotificationType)
    (d : NotificationDuration) (id ts : Nat) (s : NotifState) (h : notifInv s) :
    notifInv (addNotification m ty d id ts s) := by
  unfold addNotification
  cases d with
  | permanent =>
    rw [if_pos rfl]
    dsimp only
    by_cases hshow : s.isTransientShowing = true
    · rw [if_neg (by simp [hshow])]
      intro hf
      exact absurd (hshow.symm.trans hf) (by simp)
    · rw [if_pos (by simp [Bool.eq_false_iff.mpr hshow])]
      intro _
      have hb : s.isTransientShowing = false := Bool.eq_false_iff.mpr hshow
      exact ⟨(h hb).1, rfl⟩
  | transient =>
    rw [if_neg (by simp)]
    dsimp only
    by_cases hcond : (!s.isTransientShowing) = true ∧ s.active = s.permanent
    · rw [if_pos hcond]
      have hb : s.isTransientShowing = false := by
        simpa using hcond.1
      have hq : s.queue = [] := (h hb).1
      refine notifInv_processQueue_of_eq _ ?_
      exact hcond.2
    · rw [if_neg hcond]
      intro hf
      have hsf : s.isTransientShowing = false := hf
      obtain ⟨hq, hap⟩ := h hsf
      exact absurd ⟨by simp [hsf], hap⟩ hcond

theorem notifInv_onTransientExpire (s : NotifState) :
    notifInv (onTransientExpire s) := by
  unfold onTransientExpire expireCore
  exact notifInv_processQueue_of_eq _ rfl

theorem notifInv_dismissAll (s : NotifState) : notifInv (dismissNotificationAll s) :=
  fun _ => ⟨rfl, rfl⟩

theorem notifInv_cleanup (s : NotifState) (h : notifInv s) : notifInv (cleanup s) := h

theorem notifInv_dismissActive (id : Nat) (s : NotifState) (h : notifInv s) :
    notifInv (dismissActiveBranch id s) := by
  unfold dismissActiveBranch
  by_cases hA : s.active.map Notif.id = some id
  · rw [if_pos hA]
    apply notifInv_processQueue_of_eq
    dsimp only
    cases hp : s.permanent with
    | none => rfl
    | some p =>
      dsimp only
      by_cases hip : p.id ≠ id
      · rw [if_pos hip]
      · rw [if_neg hip]
  · rw [if_neg hA]
    exact h

theorem notifInv_dismissPermanent (id : Nat) (s1 : NotifState) (h1 : notifInv s1) :
    notifInv (dismissPermanentBranch id s1) := by
  unfold dismissPermanentBranch
  by_cases hP : s1.permanent.map Notif.id = some id
  · rw [if_pos hP]
    dsimp only
    by_cases hAd : s1.active.map Notif.id = some id
    · rw [if_pos hAd]
      exact notifInv_processQueue_of_eq _ rfl
    · rw [if_neg hAd]
      intro hf
      obtain ⟨hq, hap⟩ := h1 hf
      exact absurd (by rw [hap]; exact hP) hAd
  · rw [if_neg hP]
    exact h1

theorem notifInv_dismissId (id : Nat) (s : NotifState) (h : notifInv s) :
    notifInv (dismissNotificationId id s) := by
  have h2 := notifInv_dismissPermanent id _ (notifInv_dismissActive id s h)
  unfold dismissNotificationId
  dsimp only
  intro hf
  obtain ⟨hq, hap⟩ := h2 hf
  refine ⟨?_, hap⟩
  rw [hq]
  rfl

/-- The scheduler invariant holds in every state reachable through the
store's interface. -/
theorem notifInv_reachable (s : NotifState) (h : ReachableNotifState s) : notifInv s := by
  induction h with
  | init => exact notifInv_initial
  | add m t d i ts _ ih => exact notifInv_addNotification m t d i ts _ ih
  | proc _ ih => exact notifInv_processQueue _ ih
  | expire _ _ _ => exact notifInv_onTransientExpire _
  | dismissAll _ _ => exact notifInv_dismissAll _
  | dismissId id _ ih => exact notifInv_dismissId id _ ih
  | cleanup _ ih => exact notifInv_cleanup _ ih

/-- C6: adding a permanent notification replaces the permanent slot
unconditionally; it becomes active immediately exactly when no transient
is showing; while a transient shows, the active slot, showing flag and
backlog are untouched (the transient is never interrupted) and the
permanent notification becomes the active one at the transient's timer
expiry — `expireCore` is the expiry handler up to its backlog-draining
`processQueue` call. -/
theorem addNotification_permanent_spec (s : NotifState) (m : String)
    (ty : NotificationType) (id ts : Nat) :
    (addNotification m ty .permanent id ts s).permanent
        = some ⟨id, ty, m, .permanent, ts⟩ ∧
    (s.isTransientShowing = false →
      (addNotification m ty .permanent id ts s).active
        = some ⟨id, ty, m, .permanent, ts⟩) ∧
    (s.isTransientShowing = true →
      (addNotification m ty .permanent id ts s).active = s.active ∧
      (addNotification m ty .permanent id ts s).isTransientShowing = true ∧
      (addNotification m ty .permanent id ts s).queue = s.queue ∧
      (expireCore (addNotification m ty .permanent id ts s)).active
        = some ⟨id, ty, m, .permanent, ts⟩) := by
  by_cases hshow : s.isTransientShowing = true
  · refine ⟨?_, ?_, ?_⟩
    · simp [addNotification, hshow]
    · intro h
      rw [hshow] at h
      exact Bool.noConfusion h
    · intro _
      refine ⟨?_, ?_, ?_, ?_⟩ <;> simp [addNotification, expireCore, hshow]
  · have hs : s.isTransientShowing = false := by
      cases hb : s.isTransientShowing
      · rfl
      · exact absurd hb hshow
    refine ⟨?_, ?_, ?_⟩
    · simp [addNotification, hs]
    · intro _
      simp [addNotification, hs]
    · intro h
      rw [hs] at h
      exact Bool.noConfusion h

/-- Witness for C6 at a concrete state in which a transient is showing:
the permanent slot is replaced, the active transient is untouched, and
the new permanent notification is active after expiry. -/
theorem addNotification_permanent_spec_witness :
    (NotifState.isTransientShowing
        ⟨some ⟨1, .status, "t", .transient, 0⟩, none, [], true, true⟩ = true) ∧
      (addNotification "perm" .error .permanent 2 5
          ⟨some ⟨1, .status, "t", .transient, 0⟩, none, [], true, true⟩).permanent
        = some ⟨2, .error, "perm", .permanent, 5⟩ ∧
      (addNotification "perm" .error .permanent 2 5
          ⟨some ⟨1, .status, "t", .transient, 0⟩, none, [], true, true⟩).active
        = some ⟨1, .status, "t", .transient, 0⟩ ∧
      (expireCore (addNotification "perm" .error .permanent 2 5
          ⟨some ⟨1, .status, "t", .transient, 0⟩, none, [], true, true⟩)).active
        = some ⟨2, .error, "perm", .permanent, 5⟩ := by
  have h := addNotification_permanent_spec
    ⟨some ⟨1, .status, "t", .transient, 0⟩, none, [], true, true⟩ "perm" .error 2 5
  have h3 := h.2.2 (by decide)
  exact ⟨by decide, h.1, h3.1, h3.2.2.2⟩

/-! ## C9: transients displace a displayed permanent notification -/

/-- C9: in a state satisfying the scheduler invariant where a permanent
notification is displayed (active equals permanent) and no transient is
showing, adding a transient immediately dequeues it and makes it active,
displacing the permanent notification for the transient's display
window; the permanent slot itself is retained.  This is because the
processing condition of `addNotification` is "no transient showing and
active equals permanent", not "nothing is displayed". -/
theorem addTransient_displaces_permanent (s : NotifState) (p : Notif) (m : String)
    (ty : NotificationType) (id ts : Nat)
    (hinv : notifInv s) (hshow : s.isTransientShowing = false)
    (hact : s.active = some p) (hperm : s.permanent = some p) :
    (addNotification m ty .transient id ts s).active = some ⟨id, ty, m, .transient, ts⟩ ∧
    (addNotification m ty .transient id ts s).isTransientShowing = true ∧
    (addNotification m ty .transient id ts s).permanent = some p ∧
    (addNotification m ty .transient id ts s).queue = [] := by
  have hq : s.queue = [] := (hinv hshow).1
  refine ⟨?_, ?_, ?_, ?_⟩ <;>
    simp [addNotification, processQueue, hq, hshow, hact, hperm]

/-- Witness for C9 at a concrete state displaying a permanent
notification with an empty backlog. -/
theorem addTransient_displaces_permanent_witness :
    notifInv ⟨some ⟨1, .error, "perm", .permanent, 0⟩,
        some ⟨1, .error, "perm", .permanent, 0⟩, [], false, false⟩ ∧
      (NotifState.isTransientShowing
          ⟨some ⟨1, .error, "perm", .permanent, 0⟩,
            some ⟨1, .error, "perm", .permanent, 0⟩, [], false, false⟩ = false) ∧
      (addNotification "hi" .status .transient 2 7
          ⟨some ⟨1, .error, "perm", .permanent, 0⟩,
            some ⟨1, .error, "perm", .permanent, 0⟩, [], false, false⟩).active
        = some ⟨2, .status, "hi", .transient, 7⟩ ∧
      (addNotification "hi" .status .transient 2 7
          ⟨some ⟨1, .error, "perm", .permanent, 0⟩,
            some ⟨1, .error, "perm", .permanent, 0⟩, [], false, false⟩).permanent
        = some ⟨1, .error, "perm", .permanent, 0⟩ := by
  have h := addTransient_displaces_permanent
    ⟨some ⟨1, .error, "perm", .permanent, 0⟩,
      some ⟨1, .error, "perm", .permanent, 0⟩, [], false, false⟩
    ⟨1, .error, "perm", .permanent, 0⟩ "hi" .status 2 7
    (by decide) (by decide) (by decide) (by decide)
  exact ⟨by decide, by decide, h.1, h.2.2.1⟩

/-! ## C10: cleanup while a transient is showing wedges the scheduler -/

/-- One add or redundant process call from a showing state keeps the
showing flag, the active slot and the (cancelled) timer state. -/
theorem applyNOp_stuck (op : NOp) (s : NotifState) (h : s.isTransientShowing = true) :
    (applyNOp op s).isTransientShowing = true ∧
    (applyNOp op s).active = s.active ∧
    (applyNOp op s).timerPending = s.timerPending := by
  cases op with
  | add m ty d id ts =>
    cases d with
    | permanent => refine ⟨?_, ?_, ?_⟩ <;> simp [applyNOp, addNotification, h]
    | transient => refine ⟨?_, ?_, ?_⟩ <;> simp [applyNOp, addNotification, h]
  | proc =>
    cases hq : s.queue with
    | nil => refine ⟨?_, ?_, ?_⟩ <;> simp [applyNOp, processQueue, hq, h]
    | cons n rest => refine ⟨?_, ?_, ?_⟩ <;> simp [applyNOp, processQueue, hq, h]

/-- Any sequence of adds and redundant process calls from a showing
state keeps the showing flag, the active slot and the timer state. -/
theorem applyNOps_stuck (ops : List NOp) (s : NotifState)
    (h : s.isTransientShowing = true) :
    (applyNOps ops s).isTransientShowing = true ∧
    (applyNOps ops s).active = s.active ∧
    (applyNOps ops s).timerPending = s.timerPending := by
  induction ops generalizing s with
  | nil => exact ⟨h, rfl, rfl⟩
  | cons op ops ih =>
    have h1 := applyNOp_stuck op s h
    have h2 := ih (applyNOp op s) h1.1
    exact ⟨h2.1, h2.2.1.trans h1.2.1, h2.2.2.trans h1.2.2⟩

/-- C10: calling `cleanup` while a transient is showing leaves
`isTransientShowing` true with no timer pending; from that state every
added transient merely appends to the backlog, `processQueue` is a
no-op, no sequence of adds and process calls ever changes the displayed
notification or revives the timer, and only `dismissNotification`
(here: the no-id form, or an id matching the active notification)
resets the showing flag. -/
theorem cleanup_stuck_spec (s : NotifState) (h : s.isTransientShowing = true) :
    (cleanup s).isTransientShowing = true ∧
    (cleanup s).timerPending = false ∧
    (∀ m ty id ts, addNotification m ty .transient id ts (cleanup s)
        = { cleanup s with queue := (cleanup s).queue ++ [⟨id, ty, m, .transient, ts⟩] }) ∧
    processQueue (cleanup s) = cleanup s ∧
    (∀ ops, (applyNOps ops (cleanup s)).isTransientShowing = true ∧
      (applyNOps ops (cleanup s)).active = s.active ∧
      (applyNOps ops (cleanup s)).timerPending = false) ∧
    (dismissNotificationAll (cleanup s)).isTransientShowing = false := by
  have hc : (cleanup s).isTransientShowing = true := h
  refine ⟨hc, rfl, ?_, ?_, ?_, rfl⟩
  · intro m ty id ts
    simp [addNotification, cleanup, h]
  · cases hq : s.queue with
    | nil => simp [processQueue, cleanup, hq]
    | cons n rest => simp [processQueue, cleanup, hq, h]
  · intro ops
    have := applyNOps_stuck ops (cleanup s) hc
    exact ⟨this.1, this.2.1, this.2.2⟩

/-- Witness for C10 at a concrete wedged state: after `cleanup` during a
showing transient, an added transient is only queued and `processQueue`
does nothing. -/
theorem cleanup_stuck_spec_witness :
    (NotifState.isTransientShowing
        ⟨some ⟨1, .status, "t", .transient, 0⟩, none, [], true, true⟩ = true) ∧
      (cleanup ⟨some ⟨1, .status, "t", .transient, 0⟩, none, [], true, true⟩).timerPending
        = false ∧
      (applyNOps [.add "x" .status .transient 2 3, .proc]
          (cleanup ⟨some ⟨1, .status, "t", .transient, 0⟩, none, [], true, true⟩)).active
        = some ⟨1, .status, "t", .transient, 0⟩ := by
  have h := cleanup_stuck_spec
    ⟨some ⟨1, .status, "t", .transient, 0⟩, none, [], true, true⟩ (by decide)
  exact ⟨by decide, h.2.1, (h.2.2.2.2.1 [.add "x" .status .transient 2 3, .proc]).2.1⟩

end Shodan
